import Mathlib

/-!
Verification development for the npm install-time integration of node-prince
(`prince-npm.js`).  The JavaScript source is shallowly embedded below:

* the regular expressions the source applies to shell output and version
  strings are embedded through a small executable regular-expression engine
  based on Brzozowski derivatives;
* `princeDownloadURL`, the proxy resolution of `downloadData`, the darwin
  and linux branches of `install`, and `uninstall` are embedded as pure
  Lean functions over explicit inputs standing for the ambient process
  state (platform string, architecture string, environment variables,
  filesystem contents, results of the fallible filesystem primitives).

A note on promise semantics used throughout: `princeDownloadURL` wraps an
`async` executor in a `new Promise`.  A `throw` inside an async executor
does not reject the outer promise — the async function's rejected result
is discarded — so both a `throw` and falling off the end of the `switch`
leave the returned promise unsettled.  The embedding records the three
syntactic outcomes separately (`resolved`, `thrown`, `pending`); only
`resolved` ever settles the promise the caller sees.
-/

namespace NodePrince

/-- Abstract syntax of the regular expressions occurring in the source:
empty language, empty string, a single-character class, concatenation,
alternation and Kleene star.  Bounded repetitions and `?` are desugared
into this core. -/
inductive RE where
  | void : RE
  | eps : RE
  | cls : (Char → Bool) → RE
  | cat : RE → RE → RE
  | alt : RE → RE → RE
  | star : RE → RE

/-- Does the regular expression accept the empty string? -/
def nullable : RE → Bool
  | .void => false
  | .eps => true
  | .cls _ => false
  | .cat a b => nullable a && nullable b
  | .alt a b => nullable a || nullable b
  | .star _ => true

/-- Smart concatenation constructor keeping derivatives small. -/
def mkCat : RE → RE → RE
  | .void, _ => .void
  | _, .void => .void
  | .eps, r => r
  | r, .eps => r
  | a, b => .cat a b

/-- Smart alternation constructor keeping derivatives small. -/
def mkAlt : RE → RE → RE
  | .void, r => r
  | r, .void => r
  | a, b => .alt a b

/-- Brzozowski derivative of a regular expression by one character. -/
def deriv : RE → Char → RE
  | .void, _ => .void
  | .eps, _ => .void
  | .cls p, c => if p c then .eps else .void
  | .cat a b, c =>
      if nullable a then mkAlt (mkCat (deriv a c) b) (deriv b c)
      else mkCat (deriv a c) b
  | .alt a b, c => mkAlt (deriv a c) (deriv b c)
  | .star a, c => mkCat (deriv a c) (.star a)

/-- Whole-list acceptance via iterated derivatives. -/
def reAccepts : RE → List Char → Bool
  | r, [] => nullable r
  | r, c :: cs => reAccepts (deriv r c) cs

/-- Does some (possibly empty) leading segment of the list match the
regular expression?  This models a JavaScript regex anchored with `^`
but without `$`. -/
def reMatchesAtStart : RE → List Char → Bool
  | r, [] => nullable r
  | r, c :: cs => nullable r || reMatchesAtStart (deriv r c) cs

/-- Does the regular expression match some segment of the list starting at
any position?  This models an unanchored JavaScript `String.match`. -/
def reSearch : RE → List Char → Bool
  | r, [] => nullable r
  | r, cs@(_ :: rest) => reMatchesAtStart r cs || reSearch r rest

/-- Anchored full-string test, modelling a JavaScript regex of the form
`^...$` applied via `RegExp.test`. -/
def reTest (r : RE) (s : String) : Bool :=
  reAccepts r s.data

/-- Single literal character. -/
def chr (c : Char) : RE :=
  .cls (fun x => x == c)

/-- Literal string as a regular expression. -/
def reLit (s : String) : RE :=
  s.data.foldr (fun c r => RE.cat (chr c) r) RE.eps

/-- Exactly `n` copies of `r`, i.e. the desugaring of `r{n}`. -/
def reCount : RE → Nat → RE
  | _, 0 => .eps
  | r, n + 1 => .cat r (reCount r n)

/-- At most `n` copies of `r`, i.e. the desugaring of `r{0,n}`. -/
def reUpTo : RE → Nat → RE
  | _, 0 => .eps
  | r, n + 1 => .alt .eps (.cat r (reUpTo r n))

/-- Bounded repetition `r{lo,hi}`. -/
def reRep (r : RE) (lo hi : Nat) : RE :=
  .cat (reCount r lo) (reUpTo r (hi - lo))

/-- Optional occurrence `r?`. -/
def reOpt (r : RE) : RE :=
  .alt .eps r

/-- The character class `[0-9]` (also `\d`). -/
def digitCls : RE :=
  .cls (fun c => '0' ≤ c && c ≤ '9')

/-- The character class `[a-zA-Z]`. -/
def letterCls : RE :=
  .cls (fun c => ('a' ≤ c && c ≤ 'z') || ('A' ≤ c && c ≤ 'Z'))

/-- The character class `[a-zA-Z0-9]`. -/
def alnumCls : RE :=
  .cls (fun c =>
    ('a' ≤ c && c ≤ 'z') || ('A' ≤ c && c ≤ 'Z') || ('0' ≤ c && c ≤ '9'))

/-- The JavaScript `.` metacharacter: any character except a line
terminator. -/
def dotCls : RE :=
  .cls (fun c =>
    !(c == '\n' || c == '\r' || c == Char.ofNat 0x2028 || c == Char.ofNat 0x2029))

/-- `\d+`. -/
def digitsPlus : RE :=
  .cat digitCls (.star digitCls)

/-- `(?:\.\d+)*`, the dotted-suffix tail shared by every version regex in
`princeDownloadURL`. -/
def dottedTail : RE :=
  .star (.cat (chr '.') digitsPlus)

/-- Source regex `/^1[45](?:\.\d+)*$/` (Ubuntu 14.x / 15.x). -/
def reU1415 : RE :=
  .cat (chr '1') (.cat (.cls (fun c => c == '4' || c == '5')) dottedTail)

/-- Source regex `/^1[67](?:\.\d+)*$/` (Ubuntu 16.x / 17.x). -/
def reU1617 : RE :=
  .cat (chr '1') (.cat (.cls (fun c => c == '6' || c == '7')) dottedTail)

/-- Source regex `/^1[89](?:\.\d+)*$/` (Ubuntu 18.x / 19.x). -/
def reU1819 : RE :=
  .cat (chr '1') (.cat (.cls (fun c => c == '8' || c == '9')) dottedTail)

/-- Source regex `/^2[01](?:\.\d+)*$/` (Ubuntu 20.x / 21.x). -/
def reU2021 : RE :=
  .cat (chr '2') (.cat (.cls (fun c => c == '0' || c == '1')) dottedTail)

/-- Source regex `/^10(?:\.\d+)*$/` (Debian 10). -/
def reDeb10 : RE :=
  .cat (chr '1') (.cat (chr '0') dottedTail)

/-- Source regex `/^9(?:\.\d+)*$/` (Debian 9). -/
def reDeb9 : RE :=
  .cat (chr '9') dottedTail

/-- Source regex `/^8(?:\.\d+)*$/` (Debian 8 and CentOS 8). -/
def reV8 : RE :=
  .cat (chr '8') dottedTail

/-- Source regex `/^7(?:\.\d+)*$/` (CentOS 7). -/
def reV7 : RE :=
  .cat (chr '7') dottedTail

/-- Source regex `/^6(?:\.\d+)*$/` (CentOS 6). -/
def reV6 : RE :=
  .cat (chr '6') dottedTail

/-- The platform-identification regex of `getLinuxOSInfo`:
`([a-zA-Z0-9].*)\-([a-zA-Z]{1,10})([0-9]{1,5}.[0-9]{1,5}.?[0-9]{1,5})`
(the two unescaped dots in the third group are the any-character
metacharacter, as in the source). -/
def osRegex : RE :=
  .cat alnumCls (.cat (.star dotCls) (.cat (chr '-')
    (.cat (reRep letterCls 1 10)
      (.cat (reRep digitCls 1 5)
        (.cat dotCls
          (.cat (reRep digitCls 1 5)
            (.cat (reOpt dotCls) (reRep digitCls 1 5))))))))

/-- ASCII lowercasing of one character, as `String.prototype.toLowerCase`
acts on the ASCII range relevant here. -/
def jsToLower (c : Char) : Char :=
  if 'A' ≤ c && c ≤ 'Z' then Char.ofNat (c.toNat + 32) else c

/-- Does the unanchored match of `osRegex` against the lowercased shell
output succeed?  When it does, `getLinuxOSInfo` resolves with the captured
fields; when it does not, `String.match` returns `null`, the unguarded
array destructuring in the callback throws a `TypeError`, and the promise
never settles. -/
def getLinuxOSInfoSettles (output : String) : Bool :=
  reSearch osRegex (output.data.map jsToLower)

/-- The parsed fields `getLinuxOSInfo` resolves with when `osRegex`
matched: the three capture groups of the match, lowercased. -/
structure OSInfo where
  osCPUArch : String
  osName : String
  osVersion : String
deriving DecidableEq

/-- The three syntactic outcomes of the `princeDownloadURL` executor.
Since the executor is an `async` function inside `new Promise`, both
`thrown` (an uncaught `throw` in the executor, recorded with its message)
and `pending` (control falls off the end of the `switch` without calling
`resolve`) leave the promise the caller holds unsettled; only `resolved`
settles it. -/
inductive Outcome where
  | resolved : String → Outcome
  | thrown : String → Outcome
  | pending : Outcome
deriving DecidableEq

/-- `PRINCE_VERSION` constant of the source. -/
def PRINCE_VERSION : Nat := 14

/-- Shared prefix of every download URL the source builds. -/
def dlBase : String :=
  "https://www.princexml.com/download/prince-" ++ toString PRINCE_VERSION

/-- Message of the `ReferenceError` raised when the dead `debian` /
`centos` / `alpine` cases of the outer platform switch evaluate the
out-of-scope `osCPUArch` binding (it is `const`-scoped to the `linux`
case's block). -/
def scopeError : String := "ReferenceError: osCPUArch is not defined"

/-- The Ubuntu/amd64 version ladder of `princeDownloadURL`
(lines 136–158 of the source). -/
def ubuntuAmd64 (v : String) : Outcome :=
  if reTest reU1415 v then .resolved (dlBase ++ "-ubuntu14.04-amd64.tar.gz")
  else if reTest reU1617 v then .resolved (dlBase ++ "-ubuntu16.04-amd64.tar.gz")
  else if reTest reU1819 v then .resolved (dlBase ++ "-ubuntu18.04-amd64.tar.gz")
  else if reTest reU2021 v then .resolved (dlBase ++ "-ubuntu20.04-amd64.tar.gz")
  else .thrown ("Unknown os version: " ++ v)

/-- The Ubuntu/ix86 version ladder of `princeDownloadURL`
(lines 159–177 of the source; it has no 20.x/21.x rung). -/
def ubuntuIx86 (v : String) : Outcome :=
  if reTest reU1415 v then .resolved (dlBase ++ "-ubuntu14.04-i386.tar.gz")
  else if reTest reU1617 v then .resolved (dlBase ++ "-ubuntu16.04-i386.tar.gz")
  else if reTest reU1819 v then .resolved (dlBase ++ "-ubuntu18.04-i386.tar.gz")
  else .thrown ("Unknown os version: " ++ v)

/-- The `switch(osName)` inside the `linux` case of `princeDownloadURL`.
Its only case is `'ubuntu'` and it has no `default`, so any other distro
name falls through without resolving or throwing. -/
def linuxCase (info : OSInfo) : Outcome :=
  match info.osName with
  | "ubuntu" =>
    match info.osCPUArch with
    | "amd64" => ubuntuAmd64 info.osVersion
    | "ix86" => ubuntuIx86 info.osVersion
    | a => .thrown ("Unsupported architecture: \"" ++ a ++ "\"")
  | _ => Outcome.pending

/-- Embedding of `princeDownloadURL` (lines 99–256).  `platform` is
`process.platform`, `arch` is `process.arch`, and `osInfo` is the result
of `await getLinuxOSInfo()` performed by the `darwin` and `linux` cases:
`some info` when the probe's promise resolved, `none` when it never
settles (non-matching shell output), in which case the `await` never
completes and the resolver stays pending.  Note the first case label is
the source's misspelled `"wind32"`, and the `debian` / `centos` / `alpine`
labels belong to this outer switch on `process.platform`. -/
def princeDownloadURL (platform arch : String) (osInfo : Option OSInfo) : Outcome :=
  match platform with
  | "wind32" =>
    match arch with
    | "x64" => .resolved (dlBase ++ "-win64-setup.exe")
    | "ia32" => .resolved (dlBase ++ "-win32-setup.exe")
    | "x32" => .resolved (dlBase ++ "-win32-setup.exe")
    | a => .thrown ("Unsupported architecture: " ++ a)
  | "darwin" =>
    match osInfo with
    | some _ => .resolved (dlBase ++ "-macos.zip")
    | none => Outcome.pending
  | "linux" =>
    match osInfo with
    | some info => linuxCase info
    | none => Outcome.pending
  | "debian" => .thrown scopeError
  | "centos" => .thrown scopeError
  | "alpine" => .thrown scopeError
  | p => .thrown ("Unsupported platform: \"" ++ p ++ "\"")

/-- The complete darwin run of the resolver as a function of the raw
shell output of the OS probe: when `osRegex` matches, `getLinuxOSInfo`
resolves (with fields the darwin case discards, stood for here by a
placeholder) and the macOS URL is resolved; when it does not match, the
`await` never completes. -/
def resolverDarwin (probeOutput arch : String) : Outcome :=
  princeDownloadURL "darwin" arch
    (if getLinuxOSInfoSettles probeOutput then some ⟨"", "", ""⟩ else none)

/-- Source regex `/^https?:\/\/.+/`, against which `downloadData` tests
the trimmed output of `npm config get proxy` (anchored at the start
only). -/
def npmProxyRE : RE :=
  .cat (reLit "http") (.cat (reOpt (chr 's'))
    (.cat (reLit "://") (.cat dotCls (.star dotCls))))

/-- Does a string pass the `^https?:\/\/.+` test of `downloadData`? -/
def npmProxyOk (s : String) : Bool :=
  reMatchesAtStart npmProxyRE s.data

/-- The `stdout.replace(/\r?\n$/, "")` trimming of `downloadData`:
remove one trailing `\n`, together with a `\r` immediately before it. -/
def stripTrailingNewline (s : String) : String :=
  match s.data.reverse with
  | '\n' :: '\r' :: rest => ⟨rest.reverse⟩
  | '\n' :: rest => ⟨rest.reverse⟩
  | _ => s

/-- Ambient state consulted by the proxy-resolution step of
`downloadData`: the `http_proxy` environment variable (`none` when it is
unset or not a string) and the stdout of `npm config get proxy` (`none`
when the command fails). -/
structure ProxyEnv where
  httpProxyVar : Option String
  npmConfigStdout : Option String
deriving DecidableEq

/-- The fallback branch of the proxy resolution: consult
`npm config get proxy` and accept its trimmed output only when it passes
the `^https?:\/\/.+` test. -/
def npmFallback : Option String → Option String
  | none => none
  | some out =>
    let s := stripTrailingNewline out
    if npmProxyOk s then some s else none

/-- Embedding of the proxy resolution of `downloadData` (lines 269–293):
the value assigned to `options.proxy` (`none` when no proxy is set).  The
environment variable is used whenever it is a non-empty string; only
otherwise is the npm configuration consulted. -/
def resolveProxy (env : ProxyEnv) : Option String :=
  match env.httpProxyVar with
  | some v => if v = "" then npmFallback env.npmConfigStdout else some v
  | none => npmFallback env.npmConfigStdout

/-- One entry of `readdir` output together with its `stat().isDirectory()`
answer. -/
structure DirEntry where
  entryName : String
  isDirectory : Bool
deriving DecidableEq

/-- Observable filesystem actions of the `install` branches, in program
order. -/
inductive Action where
  | savedZip : Action
  | unzippedArchive : Action
  | unlinkedZip : Action
  | movedToDest : String → Action
  | madeExecutable : Action
  | removedTmp : String → Action
  | removeTmpOnUnsetVar : Action
  | wroteTgz : Action
  | madeDestDir : Action
  | extractedTar : Action
  | unlinkedTgz : Action
  | loggedExtractError : Action
deriving DecidableEq

/-- Result of one `install` branch: `ok` when the branch completes
without an uncaught error, `error msg` when an error propagates out. -/
inductive InstallResult where
  | ok : InstallResult
  | error : String → InstallResult
deriving DecidableEq

/-- Result of `createTmpDir`: the created directory, or the `mkdtemp`
error. -/
inductive TmpDirResult where
  | ok : String → TmpDirResult
  | error : String → TmpDirResult
deriving DecidableEq

/-- Results of the fallible primitives the darwin branch of `install`
invokes, fixed up front so the branch itself is a pure function of them:
the `mkdtemp` result, the unzip error (if any), the entries `readdir`
reports in the temporary directory, and the `chmod` error (if any) of
`makePrinceExecutable`. -/
structure DarwinEnv where
  createTmpDirResult : TmpDirResult
  unzipError : Option String
  entries : List DirEntry
  chmodError : Option String
deriving DecidableEq

/-- Message of the `TypeError` raised when the catch branch calls
`removeTmpDir(tempDir)` while `tempDir` is still `undefined` because
`createTmpDir` itself failed; it replaces the original error before the
`throw error` statement is reached. -/
def rmdirUndefinedError : String :=
  "TypeError: the path argument of rmdir is undefined"

/-- Embedding of the `darwin` case of `install` (lines 486–537), returning
the branch result and the trace of filesystem actions performed.  Notes
tied to the source: `saveFileToDisk` never fails from the caller's view
(it does not await the promise it builds); when `readdir` reports two or
more entries, the `files.length === 1` block is skipped entirely and the
branch completes without moving anything; every error raised inside the
`try` is rethrown by the catch after `removeTmpDir(tempDir)`. -/
def darwinInstall (env : DarwinEnv) : InstallResult × List Action :=
  match env.createTmpDirResult with
  | .error _ => (.error rmdirUndefinedError, [.removeTmpOnUnsetVar])
  | .ok tmp =>
    match env.unzipError with
    | some e => (.error e, [.savedZip, .removedTmp tmp])
    | none =>
      match env.entries with
      | [] =>
        (.error ("No files found in the temp directory: " ++ tmp),
         [.savedZip, .unzippedArchive, .unlinkedZip, .removedTmp tmp])
      | [f] =>
        if f.isDirectory then
          match env.chmodError with
          | some e =>
            (.error e,
             [.savedZip, .unzippedArchive, .unlinkedZip,
              .movedToDest f.entryName, .removedTmp tmp])
          | none =>
            (.ok,
             [.savedZip, .unzippedArchive, .unlinkedZip,
              .movedToDest f.entryName, .madeExecutable, .removedTmp tmp])
        else
          (.error "Found one file in the temp directory. Expected a directory",
           [.savedZip, .unzippedArchive, .unlinkedZip, .removedTmp tmp])
      | _ =>
        (.ok, [.savedZip, .unzippedArchive, .unlinkedZip, .removedTmp tmp])

/-- Is an action a move into the final destination directory? -/
def Action.isMoveToDest : Action → Bool
  | .movedToDest _ => true
  | _ => false

/-- Embedding of the `linux` case of `install` (lines 540–561) as its
action trace: write the tarball, create the destination directory,
extract (stripping one leading path segment); on success unlink the
tarball, on failure only log — the error is swallowed, and no step ever
grants execute permission. -/
def linuxInstall (extractOk : Bool) : List Action :=
  if extractOk then [.wroteTgz, .madeDestDir, .extractedTar, .unlinkedTgz]
  else [.wroteTgz, .madeDestDir, .loggedExtractError]

/-- The managed installation directory `path.join(__dirname, "prince")`,
with `__dirname` abstracted to a fixed root. -/
def destdir : String := "__dirname/prince"

/-- Is the first character list a leading segment of the second? -/
def isLeadingSegment : List Char → List Char → Bool
  | [], _ => true
  | _ :: _, [] => false
  | c :: cs, d :: ds => c == d && isLeadingSegment cs ds

/-- Is path `p` the directory `dir` itself or a path inside it? -/
def isUnder (p dir : String) : Bool :=
  decide (p = dir) || isLeadingSegment (dir ++ "/").data p.data

/-- `fs.existsSync(destdir)` over a filesystem modelled as the list of
its paths. -/
def existsSyncDir (fsPaths : List String) (dir : String) : Bool :=
  fsPaths.any (fun p => isUnder p dir)

/-- `rimraf(destdir)`: recursively remove the directory and everything
inside it. -/
def rimrafDir (fsPaths : List String) (dir : String) : List String :=
  fsPaths.filter (fun p => !(isUnder p dir))

/-- Embedding of `uninstall` (lines 576–586): remove the managed
directory when present, do nothing when absent.  The boolean records
whether a removal was performed. -/
def uninstall (fsPaths : List String) : List String × Bool :=
  if existsSyncDir fsPaths destdir then (rimrafDir fsPaths destdir, true)
  else (fsPaths, false)

end NodePrince

namespace NodePrince

/-- The empty language accepts nothing. -/
theorem reAccepts_void (cs : List Char) : reAccepts RE.void cs = false := by
  induction cs with
  | nil => rfl
  | cons c cs ih => exact ih

/-- Concatenating the empty string on the left is the identity. -/
theorem mkCat_eps (r : RE) : mkCat RE.eps r = r := by
  cases r <;> rfl

/-- Concatenating the empty language on the left gives the empty
language. -/
theorem mkCat_void (r : RE) : mkCat RE.void r = RE.void := by
  cases r <;> rfl

/-- Acceptance of a class-headed concatenation on a nonempty list splits
into the head-character test and acceptance of the tail. -/
theorem reAccepts_catCls (p : Char → Bool) (r : RE) (c : Char) (cs : List Char) :
    reAccepts (RE.cat (RE.cls p) r) (c :: cs) = (p c && reAccepts r cs) := by
  show reAccepts (deriv (RE.cat (RE.cls p) r) c) cs = _
  cases hpc : p c with
  | true =>
    have hd : deriv (RE.cat (RE.cls p) r) c = r := by
      simp [deriv, nullable, hpc, mkCat_eps]
    rw [hd, Bool.true_and]
  | false =>
    have hd : deriv (RE.cat (RE.cls p) r) c = RE.void := by
      simp [deriv, nullable, hpc, mkCat_void]
    rw [hd, Bool.false_and, reAccepts_void]

/-- A class-headed concatenation rejects the empty list. -/
theorem reAccepts_catCls_nil (p : Char → Bool) (r : RE) :
    reAccepts (RE.cat (RE.cls p) r) [] = false := rfl

/-- Any list accepted by a class-headed concatenation starts with a
character of the class, and the rest is accepted by the remainder. -/
theorem accepts_head (p : Char → Bool) (r : RE) (cs : List Char)
    (h : reAccepts (RE.cat (RE.cls p) r) cs = true) :
    ∃ c cs2, cs = c :: cs2 ∧ p c = true ∧ reAccepts r cs2 = true := by
  cases cs with
  | nil => rw [reAccepts_catCls_nil] at h; exact absurd h (by simp)
  | cons c cs2 =>
    rw [reAccepts_catCls, Bool.and_eq_true] at h
    exact ⟨c, cs2, rfl, h.1, h.2⟩

/-- A list accepted by a concatenation headed by class `p` is rejected by
any concatenation headed by a class disjoint from `p`. -/
theorem not_accepts_of_head (p q : Char → Bool) (r r2 : RE) (cs : List Char)
    (h : reAccepts (RE.cat (RE.cls p) r) cs = true)
    (hpq : ∀ c, p c = true → q c = false) :
    reAccepts (RE.cat (RE.cls q) r2) cs = false := by
  obtain ⟨c, cs2, rfl, hc, _⟩ := accepts_head p r cs h
  rw [reAccepts_catCls, hpq c hc, Bool.false_and]

/-- Two of the Ubuntu version regexes share the head digit `1`; a version
accepted by one of them is rejected by the other when their second-digit
classes are disjoint. -/
theorem not_accepts_head1 (p q : Char → Bool) (cs : List Char)
    (h : reAccepts (RE.cat (RE.cls fun x => x == '1')
      (RE.cat (RE.cls p) dottedTail)) cs = true)
    (hpq : ∀ c, p c = true → q c = false) :
    reAccepts (RE.cat (RE.cls fun x => x == '1')
      (RE.cat (RE.cls q) dottedTail)) cs = false := by
  obtain ⟨c, cs2, rfl, hc, h2⟩ := accepts_head _ _ cs h
  rw [reAccepts_catCls, hc, Bool.true_and]
  exact not_accepts_of_head p q _ _ cs2 h2 hpq

/-- After `rimrafDir`, nothing under the removed directory remains. -/
theorem existsSync_rimraf (fsPaths : List String) (dir : String) :
    existsSyncDir (rimrafDir fsPaths dir) dir = false := by
  rw [existsSyncDir, List.any_eq_false]
  intro p hp
  rw [rimrafDir, List.mem_filter, Bool.not_eq_true'] at hp
  simp [hp.2]

end NodePrince

namespace NodePrince

example : reTest reU2021 "20.04" = true := by decide
example : reTest reU2021 "21" = true := by decide
example : reTest reU1415 "20.04" = false := by decide
example : reTest reU1617 "16.10" = true := by decide
example : getLinuxOSInfoSettles "a-bc1.2.3" = true := by decide
example : getLinuxOSInfoSettles "zzz" = false := by decide
example : getLinuxOSInfoSettles "x86_64-darwin20.6.0" = true := by decide

/-- C1: evaluation of the darwin install branch at the failing input.  A
zip archive whose temporary extraction directory holds two top-level
entries makes the branch complete without any error — the
`files.length === 1` block is skipped and nothing else checks the count —
and no file from the archive is moved into the final destination (no
`movedToDest` action occurs).  The claim's error half is therefore false:
the code raises no `UnexpectedArchiveLayout` (or any) error here. -/
theorem claim_c1_two_entries_silent :
    (darwinInstall ⟨.ok "tmp-x", none,
      [⟨"prince-a", true⟩, ⟨"prince-b", true⟩], none⟩).1 = .ok ∧
    (darwinInstall ⟨.ok "tmp-x", none,
      [⟨"prince-a", true⟩, ⟨"prince-b", true⟩], none⟩).2.any
        Action.isMoveToDest = false := by
  decide

/-- C2: at platform triple {linux, amd64, fedora, 34} the resolver's
promise never settles.  The inner `switch(osName)` has only an `'ubuntu'`
case and no `default`, so control falls through without resolving or
throwing; the promise neither resolves a URL nor settles with an
`UnsupportedPlatform` error (and since nothing resolves, no download is
ever attempted). -/
theorem claim_c2_fedora_pending :
    princeDownloadURL "linux" "x64" (some ⟨"amd64", "fedora", "34"⟩) =
      Outcome.pending := by
  decide

/-- C3: on a real Windows host (`process.platform` is `"win32"`) the
resolver does not resolve the win64 installer URL: the case label is
misspelled `"wind32"`, so `"win32"` falls to the default case, which
throws `Unsupported platform`.  The misspelled label itself carries the
intended arch branching, showing the slip. -/
theorem claim_c3_win32_misspelled :
    princeDownloadURL "win32" "x64" none =
      Outcome.thrown "Unsupported platform: \"win32\"" ∧
    princeDownloadURL "wind32" "x64" none =
      Outcome.resolved (dlBase ++ "-win64-setup.exe") ∧
    princeDownloadURL "wind32" "ia32" none =
      Outcome.resolved (dlBase ++ "-win32-setup.exe") ∧
    princeDownloadURL "wind32" "x32" none =
      Outcome.resolved (dlBase ++ "-win32-setup.exe") := by
  decide

/-- C4: at platform triple {linux, amd64, debian, 10} (and likewise
CentOS 7) the resolver's promise never settles: the distro switch inside
the `linux` case has no `debian`/`centos` cases — those blocks sit
unreachably in the outer switch on `process.platform`, where they would
raise a `ReferenceError` on the out-of-scope `osCPUArch` binding — so no
version-specific tarball URL is ever resolved. -/
theorem claim_c4_debian_pending :
    princeDownloadURL "linux" "x64" (some ⟨"amd64", "debian", "10"⟩) =
      Outcome.pending ∧
    princeDownloadURL "linux" "x64" (some ⟨"amd64", "centos", "7"⟩) =
      Outcome.pending ∧
    princeDownloadURL "debian" "x64" (some ⟨"amd64", "debian", "10"⟩) =
      Outcome.thrown scopeError := by
  decide

/-- C5 counterexample: the linux tar.gz branch of `install` performs the
extraction but never grants execute permission — its action trace
contains no `madeExecutable` — refuting the claim that every POSIX-like
platform path explicitly sets execute permission. -/
theorem claim_c5_counterexample :
    Action.madeExecutable ∉ linuxInstall true ∧
    Action.extractedTar ∈ linuxInstall true := by
  decide

/-- C5 (amended): on the macOS zip path, after a successful extraction
whose temporary directory holds exactly one directory entry, the
executables under `lib/prince/bin` are explicitly granted execute
permission via `makePrinceExecutable`, and a failure of that step is
fatal to the branch: the error propagates out instead of being
swallowed.  (The linux tar.gz path sets no permissions; see the
counterexample.) -/
theorem claim_c5_darwin_chmod_fatal (env : DarwinEnv) (tmp : String)
    (f : DirEntry) (h1 : env.createTmpDirResult = .ok tmp)
    (h2 : env.unzipError = none) (h3 : env.entries = [f])
    (h4 : f.isDirectory = true) :
    (env.chmodError = none →
      (darwinInstall env).1 = .ok ∧
      Action.madeExecutable ∈ (darwinInstall env).2) ∧
    (∀ e, env.chmodError = some e →
      (darwinInstall env).1 = .error e ∧
      Action.madeExecutable ∉ (darwinInstall env).2) := by
  cases env with
  | mk ctd uz en ch =>
    simp only at h1 h2 h3
    subst h1; subst h2; subst h3
    constructor
    · intro hch
      simp only at hch
      subst hch
      constructor
      · simp [darwinInstall, h4]
      · simp [darwinInstall, h4]
    · intro e hch
      simp only at hch
      subst hch
      constructor
      · simp [darwinInstall, h4]
      · simp [darwinInstall, h4]

/-- C5 witness: the amended theorem applied at concrete inputs, one with
a succeeding chmod and one with a failing chmod. -/
theorem claim_c5_witness :
    (darwinInstall ⟨.ok "tmp-1", none, [⟨"prince-14", true⟩], none⟩).1 =
      .ok ∧
    (darwinInstall ⟨.ok "tmp-1", none, [⟨"prince-14", true⟩],
      some "EACCES: permission denied"⟩).1 =
      .error "EACCES: permission denied" :=
  ⟨((claim_c5_darwin_chmod_fatal ⟨.ok "tmp-1", none, [⟨"prince-14", true⟩],
      none⟩ "tmp-1" ⟨"prince-14", true⟩ rfl rfl rfl rfl).1 rfl).1,
   ((claim_c5_darwin_chmod_fatal ⟨.ok "tmp-1", none, [⟨"prince-14", true⟩],
      some "EACCES: permission denied"⟩ "tmp-1" ⟨"prince-14", true⟩ rfl rfl
      rfl rfl).2 "EACCES: permission denied" rfl).1⟩

/-- C6 counterexample: when creating the temporary directory itself
fails, the catch branch still calls `removeTmpDir(tempDir)` with
`tempDir` unset — cleanup is attempted on a resource that was never
acquired, and the resulting `TypeError` replaces the original error —
refuting the claim that cleanup is never attempted on an unacquired
resource. -/
theorem claim_c6_counterexample :
    (darwinInstall ⟨.error "EACCES: mkdtemp failed", none, [], none⟩).2 =
      [Action.removeTmpOnUnsetVar] ∧
    (darwinInstall ⟨.error "EACCES: mkdtemp failed", none, [], none⟩).1 =
      .error rmdirUndefinedError := by
  decide

/-- C6 (amended): on every exit path of the darwin extraction step that
begins after the temporary directory was successfully created — success
as well as every failure — the temporary directory is removed.  (When
creation itself fails, removal is instead attempted on the unset
variable; see the counterexample.) -/
theorem claim_c6_tmpdir_removed (env : DarwinEnv) (tmp : String)
    (h : env.createTmpDirResult = .ok tmp) :
    Action.removedTmp tmp ∈ (darwinInstall env).2 := by
  cases env with
  | mk ctd uz en ch =>
    simp only at h
    subst h
    cases uz with
    | some e => simp [darwinInstall]
    | none =>
      cases en with
      | nil => simp [darwinInstall]
      | cons f rest =>
        cases rest with
        | nil =>
          cases hf : f.isDirectory with
          | false => simp [darwinInstall, hf]
          | true => cases ch <;> simp [darwinInstall, hf]
        | cons g rest2 => simp [darwinInstall]

/-- C6 witness: the amended theorem applied at a concrete input (a
failing unzip after a successful temporary-directory creation). -/
theorem claim_c6_witness :
    Action.removedTmp "tmp-1" ∈
      (darwinInstall ⟨.ok "tmp-1", some "bad zip", [], none⟩).2 :=
  claim_c6_tmpdir_removed ⟨.ok "tmp-1", some "bad zip", [], none⟩ "tmp-1" rfl

/-- C7: for the platform triple {linux, amd64, ubuntu, version matching
20.x or 21.x} the resolver resolves the Ubuntu-20.04 amd64 tarball URL,
and each of the Ubuntu amd64 version ranges 14–15 / 16–17 / 18–19 /
20–21 maps to its own distinct tarball URL. -/
theorem claim_c7_ubuntu_version_map (arch v : String) :
    (reTest reU2021 v = true →
      princeDownloadURL "linux" arch (some ⟨"amd64", "ubuntu", v⟩) =
        Outcome.resolved
          "https://www.princexml.com/download/prince-14-ubuntu20.04-amd64.tar.gz") ∧
    (reTest reU1415 v = true →
      princeDownloadURL "linux" arch (some ⟨"amd64", "ubuntu", v⟩) =
        Outcome.resolved
          "https://www.princexml.com/download/prince-14-ubuntu14.04-amd64.tar.gz") ∧
    (reTest reU1617 v = true →
      princeDownloadURL "linux" arch (some ⟨"amd64", "ubuntu", v⟩) =
        Outcome.resolved
          "https://www.princexml.com/download/prince-14-ubuntu16.04-amd64.tar.gz") ∧
    (reTest reU1819 v = true →
      princeDownloadURL "linux" arch (some ⟨"amd64", "ubuntu", v⟩) =
        Outcome.resolved
          "https://www.princexml.com/download/prince-14-ubuntu18.04-amd64.tar.gz") ∧
    List.Nodup
      ["https://www.princexml.com/download/prince-14-ubuntu14.04-amd64.tar.gz",
       "https://www.princexml.com/download/prince-14-ubuntu16.04-amd64.tar.gz",
       "https://www.princexml.com/download/prince-14-ubuntu18.04-amd64.tar.gz",
       "https://www.princexml.com/download/prince-14-ubuntu20.04-amd64.tar.gz"] := by
  have e2 : princeDownloadURL "linux" arch (some ⟨"amd64", "ubuntu", v⟩) =
      ubuntuAmd64 v := rfl
  refine ⟨fun h => ?_, fun h => ?_, fun h => ?_, fun h => ?_, by decide⟩
  · have h14 : reTest reU1415 v = false :=
      not_accepts_of_head (fun x => x == '2') (fun x => x == '1') _ _ v.data h
        (by intro x hx; simp at hx; subst hx; decide)
    have h16 : reTest reU1617 v = false :=
      not_accepts_of_head (fun x => x == '2') (fun x => x == '1') _ _ v.data h
        (by intro x hx; simp at hx; subst hx; decide)
    have h18 : reTest reU1819 v = false :=
      not_accepts_of_head (fun x => x == '2') (fun x => x == '1') _ _ v.data h
        (by intro x hx; simp at hx; subst hx; decide)
    rw [e2]; unfold ubuntuAmd64
    simp [h14, h16, h18, h]
    decide
  · rw [e2]; unfold ubuntuAmd64
    simp [h]
    decide
  · have h14 : reTest reU1415 v = false :=
      not_accepts_head1 (fun x => x == '6' || x == '7')
        (fun x => x == '4' || x == '5') v.data h
        (by intro x hx; simp at hx; rcases hx with rfl | rfl <;> decide)
    rw [e2]; unfold ubuntuAmd64
    simp [h14, h]
    decide
  · have h14 : reTest reU1415 v = false :=
      not_accepts_head1 (fun x => x == '8' || x == '9')
        (fun x => x == '4' || x == '5') v.data h
        (by intro x hx; simp at hx; rcases hx with rfl | rfl <;> decide)
    have h16 : reTest reU1617 v = false :=
      not_accepts_head1 (fun x => x == '8' || x == '9')
        (fun x => x == '6' || x == '7') v.data h
        (by intro x hx; simp at hx; rcases hx with rfl | rfl <;> decide)
    rw [e2]; unfold ubuntuAmd64
    simp [h14, h16, h]
    decide

/-- C7 witness: the theorem applied at one concrete version per range. -/
theorem claim_c7_witness :
    princeDownloadURL "linux" "x64" (some ⟨"amd64", "ubuntu", "20.04"⟩) =
      Outcome.resolved
        "https://www.princexml.com/download/prince-14-ubuntu20.04-amd64.tar.gz" ∧
    princeDownloadURL "linux" "x64" (some ⟨"amd64", "ubuntu", "14.04"⟩) =
      Outcome.resolved
        "https://www.princexml.com/download/prince-14-ubuntu14.04-amd64.tar.gz" ∧
    princeDownloadURL "linux" "x64" (some ⟨"amd64", "ubuntu", "16.10"⟩) =
      Outcome.resolved
        "https://www.princexml.com/download/prince-14-ubuntu16.04-amd64.tar.gz" ∧
    princeDownloadURL "linux" "x64" (some ⟨"amd64", "ubuntu", "19.10"⟩) =
      Outcome.resolved
        "https://www.princexml.com/download/prince-14-ubuntu18.04-amd64.tar.gz" :=
  ⟨(claim_c7_ubuntu_version_map "x64" "20.04").1 (by decide),
   (claim_c7_ubuntu_version_map "x64" "14.04").2.1 (by decide),
   (claim_c7_ubuntu_version_map "x64" "16.10").2.2.1 (by decide),
   (claim_c7_ubuntu_version_map "x64" "19.10").2.2.2.1 (by decide)⟩

/-- C8: whenever the `http_proxy` environment variable holds a non-empty
string it is the proxy threaded into the request, regardless of the npm
configuration; only when the variable is absent or empty is
`npm config get proxy` consulted, and its trimmed output is used exactly
when it passes the `^https?:\/\/.+` test; otherwise no proxy is set. -/
theorem claim_c8_proxy_resolution (env : ProxyEnv) (v : String) :
    (env.httpProxyVar = some v → v ≠ "" → resolveProxy env = some v) ∧
    (env.httpProxyVar = none ∨ env.httpProxyVar = some "" →
      resolveProxy env = npmFallback env.npmConfigStdout) ∧
    (∀ out, npmProxyOk (stripTrailingNewline out) = true →
      npmFallback (some out) = some (stripTrailingNewline out)) ∧
    (∀ out, npmProxyOk (stripTrailingNewline out) = false →
      npmFallback (some out) = none) ∧
    npmFallback none = none := by
  refine ⟨fun h hne => ?_, fun h => ?_, fun out h => ?_, fun out h => ?_, rfl⟩
  · simp [resolveProxy, h, hne]
  · rcases h with h | h <;> simp [resolveProxy, h]
  · simp [npmFallback, h]
  · simp [npmFallback, h]

/-- C8 witness: the theorem applied with both sources set (environment
wins), and with the npm fallback accepting and rejecting. -/
theorem claim_c8_witness :
    resolveProxy ⟨some "http://env-proxy.example:3128",
      some "http://npm-proxy.example:8080"⟩ =
      some "http://env-proxy.example:3128" ∧
    npmFallback (some "http://npm-proxy.example:8080\n") =
      some "http://npm-proxy.example:8080" ∧
    npmFallback (some "null\n") = none :=
  ⟨(claim_c8_proxy_resolution ⟨some "http://env-proxy.example:3128",
      some "http://npm-proxy.example:8080"⟩ "http://env-proxy.example:3128").1
      rfl (by decide),
   (claim_c8_proxy_resolution ⟨none, none⟩ "").2.2.1
      "http://npm-proxy.example:8080\n" (by decide),
   (claim_c8_proxy_resolution ⟨none, none⟩ "").2.2.2.1 "null\n" (by decide)⟩

/-- C9: `uninstall` is idempotent.  When the managed directory is absent
it is a no-op that performs no removal; when present, the directory is
removed together with everything under it; and a second run after any
run finds nothing to remove and changes nothing. -/
theorem claim_c9_uninstall_idempotent (fsPaths : List String) :
    (existsSyncDir fsPaths destdir = false →
      uninstall fsPaths = (fsPaths, false)) ∧
    (existsSyncDir fsPaths destdir = true →
      uninstall fsPaths = (rimrafDir fsPaths destdir, true) ∧
      existsSyncDir (uninstall fsPaths).1 destdir = false) ∧
    uninstall (uninstall fsPaths).1 = ((uninstall fsPaths).1, false) := by
  refine ⟨fun h => ?_, fun h => ?_, ?_⟩
  · simp [uninstall, h]
  · constructor
    · simp [uninstall, h]
    · simp [uninstall, h, existsSync_rimraf]
  · by_cases h : existsSyncDir fsPaths destdir = true
    · have h1 : (uninstall fsPaths).1 = rimrafDir fsPaths destdir := by
        simp [uninstall, h]
      rw [h1]
      simp [uninstall, existsSync_rimraf]
    · rw [Bool.not_eq_true] at h
      have h1 : (uninstall fsPaths).1 = fsPaths := by simp [uninstall, h]
      rw [h1]
      simp [uninstall, h]

/-- C9 witness: the theorem applied to a filesystem without the managed
directory and to one with it. -/
theorem claim_c9_witness :
    uninstall ["/etc/hosts"] = (["/etc/hosts"], false) ∧
    uninstall (uninstall ["__dirname/prince/lib/prince/bin/prince",
      "keep.txt"]).1 =
      ((uninstall ["__dirname/prince/lib/prince/bin/prince",
        "keep.txt"]).1, false) :=
  ⟨(claim_c9_uninstall_idempotent ["/etc/hosts"]).1 (by decide),
   (claim_c9_uninstall_idempotent
     ["__dirname/prince/lib/prince/bin/prince", "keep.txt"]).2.2⟩

/-- C10: on darwin the resolver first awaits the Linux OS-info probe.
When the probe's shell output matches the `<arch>-<name><version>`
pattern, the universal macOS zip URL is resolved — a constant that does
not depend on the parsed fields.  When the output does not match, the
unguarded destructuring of the `null` match result throws in the
callback, the probe's promise never settles and the resolver never
yields the macOS URL. -/
theorem claim_c10_darwin_probe_guard (out arch : String) :
    (getLinuxOSInfoSettles out = false →
      resolverDarwin out arch = Outcome.pending) ∧
    (getLinuxOSInfoSettles out = true →
      resolverDarwin out arch = Outcome.resolved (dlBase ++ "-macos.zip")) ∧
    (∀ info : OSInfo, princeDownloadURL "darwin" arch (some info) =
      Outcome.resolved (dlBase ++ "-macos.zip")) := by
  refine ⟨fun h => ?_, fun h => ?_, fun info => rfl⟩
  · show princeDownloadURL "darwin" arch
      (if getLinuxOSInfoSettles out then some ⟨"", "", ""⟩ else none) =
        Outcome.pending
    rw [h]
    rfl
  · show princeDownloadURL "darwin" arch
      (if getLinuxOSInfoSettles out then some ⟨"", "", ""⟩ else none) =
        Outcome.resolved (dlBase ++ "-macos.zip")
    rw [h]
    rfl

/-- C10 witness: the theorem applied to a non-matching probe output and
to a matching one. -/
theorem claim_c10_witness :
    resolverDarwin "zzz" "x64" = Outcome.pending ∧
    resolverDarwin "x86_64-darwin20.6.0" "x64" =
      Outcome.resolved (dlBase ++ "-macos.zip") :=
  ⟨(claim_c10_darwin_probe_guard "zzz" "x64").1 (by decide),
   (claim_c10_darwin_probe_guard "x86_64-darwin20.6.0" "x64").2.1 (by decide)⟩

end NodePrince
